import Mathlib

/-!
Verification of the goconfig repository (src/goconfig.go): a layered
configuration engine that loads a settings struct from a YAML file and
environment-variable overrides, validates required fields via reflection,
and supports SIGHUP-triggered reload.

The embedding models Go reflection values (`RValue`), the zero-value
inspector (`isZero`), the required-field validator
(`findMissingRequiredFields`), the load orchestration (`Load`, with the
file read, lock/unlock and decode steps recorded as an event trace), the
debug-level comparison (`DebugLevel`) and the reload arming
(`ListenForSignals`).  The YAML and environment decoders are external
collaborators; they appear as function parameters of `Load`, and for the
merge/frame claims they are instantiated with the tag-driven field-setting
semantics the spec assigns them.
-/

namespace Goconfig

/-- Model of a Go reflection value, covering the kinds inspected by
`isZero` and `findMissingRequiredFields` in src/goconfig.go.  A struct
field carries its name, the value of its `required` tag (`tag.Get
"required"`, empty string when absent), its `CanSet` flag, and its value.
Maps, slices and funcs carry only their nil-ness, the sole property the
source inspects on them. -/
inductive RValue where
  | vInt (n : Int)
  | vString (s : String)
  | vBool (b : Bool)
  | vPtr (p : Option RValue)
  | vMap (isNil : Bool)
  | vSlice (isNil : Bool)
  | vFunc (isNil : Bool)
  | vArray (elems : List RValue)
  | vStruct (fields : List (String × String × Bool × RValue))
deriving Repr

/-- A struct field as seen through reflection: (name, required-tag value,
CanSet, value). -/
abbrev GoField := String × String × Bool × RValue

mutual
/-- Embedding of `isZero` (src/goconfig.go lines 155-184): funcs, maps and
slices are zero iff nil; arrays iff every element is zero; structs iff
every settable field is zero; pointers iff nil (a non-nil pointer counts
as set regardless of its payload); other kinds compare against the zero
value of their type. -/
def isZero : RValue → Bool
  | .vFunc isNil => isNil
  | .vMap isNil => isNil
  | .vSlice isNil => isNil
  | .vArray elems => isZeroList elems
  | .vStruct fields => isZeroFields fields
  | .vPtr p => p.isNone
  | .vInt n => n == 0
  | .vString s => s == ""
  | .vBool b => b == false

/-- Embedding of the array loop of `isZero`: the conjunction of `isZero`
over the elements. -/
def isZeroList : List RValue → Bool
  | [] => true
  | v :: rest => isZero v && isZeroList rest

/-- Embedding of the struct loop of `isZero`: fields whose `CanSet` is
false are skipped. -/
def isZeroFields : List GoField → Bool
  | [] => true
  | (_, _, canSet, v) :: rest => (!canSet || isZero v) && isZeroFields rest
end

/-- Errors the load cycle can return as ordinary Go error values. -/
inductive GoError where
  | yamlError (msg : String)
  | envError (msg : String)
  | missingRequired (names : List String)
  | nilPointer
  | notAStruct
deriving Repr, DecidableEq

/-- Embedding of the field-collection loop of `findMissingRequiredFields`
(lines 131-138): a field's name is appended iff its `required` tag equals
"true" and its value is zero, in declaration order. -/
def collectMissing : List GoField → List String
  | [] => []
  | (name, required, _, v) :: rest =>
      if required == "true" && isZero v then name :: collectMissing rest
      else collectMissing rest

/-- Embedding of `findMissingRequiredFields` (lines 125-152): the loop
indirects through pointers (returning `nilPointer` for a nil one), and on
reaching a struct returns `missingRequired` with the collected names when
any exist, success otherwise; any other kind yields `notAStruct`. -/
def findMissingRequiredFields : RValue → Option GoError
  | .vStruct fields =>
      if (collectMissing fields).isEmpty then none
      else some (.missingRequired (collectMissing fields))
  | .vPtr none => some .nilPointer
  | .vPtr (some v) => findMissingRequiredFields v
  | _ => some .notAStruct

/-- Steps of a load cycle, recorded in order of occurrence: the file read
(`ioutil.ReadFile`, line 85), the guard acquisition (`c.Lock()`, line 86),
the YAML decode (line 89), the environment decode (line 93), the
required-field validation (line 96), and the guard release (the deferred
`c.Unlock()`, line 87, which runs last on every return path). -/
inductive Event where
  | readSource
  | lock
  | unlock
  | yamlDecode
  | envDecode
  | validate
deriving Repr, DecidableEq

/-- Outcome of `Load`: either a panic (never reaches the return
statement), or a returned Go error, or a nil-error return. -/
inductive LoadResult where
  | panicked (msg : String)
  | failed (e : GoError)
  | ok
deriving Repr, DecidableEq

/-- Result of one call to `Load`: the target's state when the call ends,
the returned value, and the ordered trace of steps performed. -/
structure LoadOutput where
  state : RValue
  result : LoadResult
  events : List Event
deriving Repr

/-- Whether `reflect.ValueOf(c).Kind() == reflect.Ptr` holds of a value. -/
def kindIsPtr : RValue → Bool
  | .vPtr _ => true
  | _ => false

/-- Embedding of `Load` from the environment decode onward (lines 93-99):
run the environment collaborator (which mutates the target in place and
may also report an error), abort on its error, then run
`findMissingRequiredFields` on the merged state, abort on its error,
otherwise return nil; the deferred unlock closes the trace on every path. -/
def loadAfterFile (envParse : RValue → RValue × Option String)
    (c : RValue) (evs : List Event) : LoadOutput :=
  let envOut := envParse c
  match envOut.2 with
  | some e => ⟨envOut.1, .failed (.envError e), evs ++ [.envDecode, .unlock]⟩
  | none =>
    match findMissingRequiredFields envOut.1 with
    | some ge => ⟨envOut.1, .failed ge, evs ++ [.envDecode, .validate, .unlock]⟩
    | none => ⟨envOut.1, .ok, evs ++ [.envDecode, .validate, .unlock]⟩

/-- Embedding of `Load` (lines 81-100).  `readResult` is the outcome of
`ioutil.ReadFile(c.GetFilename())`: `some data` on success, `none` on any
read failure.  `yamlUnmarshal` and `envParse` are the external decoder
collaborators; each returns the mutated target together with an optional
error.  A non-pointer argument panics before anything else happens; the
file is read, then the guard is acquired and held (deferred unlock) for
the rest of the call; a read failure silently skips the YAML decode. -/
def Load (readResult : Option String)
    (yamlUnmarshal : String → RValue → RValue × Option String)
    (envParse : RValue → RValue × Option String)
    (c : RValue) : LoadOutput :=
  if kindIsPtr c = false then
    ⟨c, .panicked "Load only accepts pointers to structs", []⟩
  else
    match readResult with
    | some data =>
        let yamlOut := yamlUnmarshal data c
        match yamlOut.2 with
        | some e =>
            ⟨yamlOut.1, .failed (.yamlError e),
             [.readSource, .lock, .yamlDecode, .unlock]⟩
        | none =>
            loadAfterFile envParse yamlOut.1 [.readSource, .lock, .yamlDecode]
    | none => loadAfterFile envParse c [.readSource, .lock]

/-- Embedding of `debugLevelMap` (lines 26-31) composed with Go map
lookup: a missing key yields the int zero value, the same rank as
`DebugError`. -/
def debugLevelMap (s : String) : Int :=
  if s == "error" then 0
  else if s == "warning" then 1
  else if s == "info" then 2
  else if s == "verbose" then 3
  else 0

/-- Embedding of `(*Config).DebugLevel` (lines 60-62): rank comparison of
the current `Debug` string against the queried level string. -/
def DebugLevel (debug level : String) : Bool :=
  debugLevelMap debug ≥ debugLevelMap level

/-- The four level strings present in `debugLevelMap`. -/
def knownLevels : List String := ["error", "warning", "info", "verbose"]

/-- State of a config target relevant to `ListenForSignals`: the
`listening` flag and the number of background reload goroutines spawned
on it so far. -/
structure ArmState where
  listening : Bool
  tasksStarted : Nat
deriving Repr, DecidableEq

/-- Embedding of `ListenForSignals` (lines 103-123): panic (`none`) on a
non-pointer argument; under the guard, return immediately when already
listening; otherwise set the flag and spawn one background reload task. -/
def ListenForSignals (isPtr : Bool) (st : ArmState) : Option ArmState :=
  if isPtr = false then none
  else if st.listening then some st
  else some ⟨true, st.tasksStarted + 1⟩

/-- Tag-driven decoder semantics for the external collaborators (spec
section 6: a decoder sets exactly the fields for which its source provides
a value, leaving every other field untouched).  `src` maps a field name to
the value the source provides for it, if any; `overrideWith` is the effect
of one decode pass on one field. -/
def overrideWith (src : String → Option String) (name : String) (old : RValue) : RValue :=
  match src name with
  | some v => .vString v
  | none => old

/-- Apply one tag-driven decode pass to a field list: each field for which
the source provides a value is overwritten, all others keep their value. -/
def decodeFields (src : String → Option String) : List GoField → List GoField
  | [] => []
  | (n, r, cs, old) :: rest => (n, r, cs, overrideWith src n old) :: decodeFields src rest

/-- A tag-driven decode pass applied to a pointer-to-struct target; any
other shape is left unchanged. -/
def applyDecode (src : String → Option String) : RValue → RValue
  | .vPtr (some (.vStruct fields)) => .vPtr (some (.vStruct (decodeFields src fields)))
  | v => v

/-- Value of the first field with the given name, reflecting Go's unique
field names. -/
def getField (name : String) : List GoField → Option RValue
  | [] => none
  | (n, _, _, v) :: rest => if n == name then some v else getField name rest

/-- Follow every level of pointer indirection: `none` when a nil pointer
is encountered, otherwise the first non-pointer value reached. -/
def deref : RValue → Option RValue
  | .vPtr none => none
  | .vPtr (some v) => deref v
  | v => some v

/-- Specification-side restatement of the validator: follow all pointer
indirections with `deref`, fail `nilPointer` when a nil pointer is hit,
fail `notAStruct` when the value reached is not a struct, otherwise
report the missing required fields of the struct reached. -/
def validateDeref (v : RValue) : Option GoError :=
  match deref v with
  | none => some GoError.nilPointer
  | some (.vStruct fields) =>
      if (collectMissing fields).isEmpty then none
      else some (.missingRequired (collectMissing fields))
  | some _ => some GoError.notAStruct

/-- The field list after the decode passes a load performs: both passes
when the read succeeded, only the environment pass when the read failed. -/
def mergedFields (readResult : Option String)
    (fileSrc envSrc : String → Option String)
    (fields : List GoField) : List GoField :=
  match readResult with
  | some _ => decodeFields envSrc (decodeFields fileSrc fields)
  | none => decodeFields envSrc fields

/-! Concrete fixtures used by the witness theorems. -/

/-- Example decoder collaborator that leaves the target unchanged and
reports no error. -/
def idYamlDecode : String → RValue → RValue × Option String :=
  fun _ c => (c, none)

/-- Example environment collaborator that leaves the target unchanged and
reports no error. -/
def idEnvDecode : RValue → RValue × Option String :=
  fun c => (c, none)

/-- Example field list: a required field left at its zero value and an
optional one already populated. -/
def exampleFields : List GoField :=
  [("Port", "true", true, .vString ""), ("Timeout", "", true, .vInt 5)]

/-- Example pointer-to-struct target built from `exampleFields`. -/
def exampleTarget : RValue := .vPtr (some (.vStruct exampleFields))

/-- Example file source: provides "Debug" and "Timeout". -/
def fileSrcEx : String → Option String :=
  fun n =>
    if n == "Debug" then some "info"
    else if n == "Timeout" then some "5"
    else none

/-- Example environment source: provides only "Debug". -/
def envSrcEx : String → Option String :=
  fun n => if n == "Debug" then some "verbose" else none

/-- Field list mirroring the repository's `Config` struct: the tagged
`Debug` field plus the unexported `filename` and `listening` fields no
source provides. -/
def configFields : List GoField :=
  [("Debug", "", true, .vString ""),
   ("filename", "", false, .vString "/etc/app.yaml"),
   ("listening", "", false, .vBool false)]

/-! Helper lemmas shared by the claim theorems. -/

/-- The collected missing names are exactly the names of the fields whose
`required` tag is "true" and whose value is zero, in declaration order. -/
theorem collectMissing_eq_filter_map (fields : List GoField) :
    collectMissing fields =
      (fields.filter (fun f => f.2.1 == "true" && isZero f.2.2.2)).map
        (fun f => f.1) := by
  induction fields with
  | nil => rfl
  | cons f rest ih =>
      obtain ⟨n, r, cs, v⟩ := f
      by_cases h : (r == "true" && isZero v) = true
      · simp [collectMissing, h, List.filter_cons, ih]
      · simp [collectMissing, h, List.filter_cons, ih]

theorem findMissing_eq_deref : ∀ v : RValue,
    findMissingRequiredFields v = validateDeref v
  | .vPtr none => rfl
  | .vPtr (some w) => findMissing_eq_deref w
  | .vInt _ => rfl
  | .vString _ => rfl
  | .vBool _ => rfl
  | .vMap _ => rfl
  | .vSlice _ => rfl
  | .vFunc _ => rfl
  | .vArray _ => rfl
  | .vStruct _ => rfl

/-- One decode pass changes exactly the fields its source provides:
looking a name up after the pass gives the source's value for it when the
source provides one, and the prior value otherwise. -/
theorem getField_decodeFields (src : String → Option String) (name : String)
    (fields : List GoField) :
    getField name (decodeFields src fields) =
      (getField name fields).map (overrideWith src name) := by
  induction fields with
  | nil => rfl
  | cons f rest ih =>
      obtain ⟨n, r, cs, v⟩ := f
      by_cases h : (n == name) = true
      · have hn : n = name := by simpa using h
        simp [decodeFields, getField, h, hn]
      · simp [decodeFields, getField, h, ih]

/-- The state a load cycle ends in is the state the environment decode
produces: the validation step only inspects it. -/
theorem loadAfterFile_state (envParse : RValue → RValue × Option String)
    (c : RValue) (evs : List Event) :
    (loadAfterFile envParse c evs).state = (envParse c).1 := by
  unfold loadAfterFile
  cases he : (envParse c).2 with
  | some e => simp [he]
  | none =>
      cases hfm : findMissingRequiredFields (envParse c).1 <;> simp [he, hfm]

/-- The validator never produces a YAML decode error. -/
theorem findMissing_ne_yamlError (v : RValue) (e : String) :
    findMissingRequiredFields v ≠ some (.yamlError e) := by
  rw [findMissing_eq_deref]
  unfold validateDeref
  cases hd : deref v with
  | none => simp
  | some w => cases w <;> simp

/-! Claim theorems. -/

/-- Claim C1: when both decode passes succeed and leave the target a
pointer to a struct, the load returns the missing-required error naming
exactly the required fields whose post-merge value is zero, in
declaration order, and returns success from the validation step iff that
set is empty. -/
theorem load_missing_required_exact
    (data : String)
    (yamlUnmarshal : String → RValue → RValue × Option String)
    (envParse : RValue → RValue × Option String)
    (c c1 : RValue) (gs : List GoField)
    (hptr : kindIsPtr c = true)
    (hy : yamlUnmarshal data c = (c1, none))
    (he : envParse c1 = (.vPtr (some (.vStruct gs)), none)) :
    (Load (some data) yamlUnmarshal envParse c).result =
      (if (collectMissing gs).isEmpty then .ok
       else .failed (.missingRequired (collectMissing gs))) ∧
    collectMissing gs =
      (gs.filter (fun f => f.2.1 == "true" && isZero f.2.2.2)).map
        (fun f => f.1) := by
  refine ⟨?_, collectMissing_eq_filter_map gs⟩
  have h0 : Load (some data) yamlUnmarshal envParse c =
      loadAfterFile envParse c1 [.readSource, .lock, .yamlDecode] := by
    simp [Load, hptr, hy]
  rw [h0]
  unfold loadAfterFile
  simp only [he, findMissingRequiredFields]
  by_cases hgs : (collectMissing gs).isEmpty = true
  · simp [hgs]
  · simp [hgs]

/-- Witness for the C1 theorem: identity decoders on a target whose
required field "Port" is left empty; the load reports exactly ["Port"]. -/
theorem load_missing_required_exact_witness :
    kindIsPtr exampleTarget = true ∧
    idYamlDecode "d" exampleTarget = (exampleTarget, none) ∧
    idEnvDecode exampleTarget = (.vPtr (some (.vStruct exampleFields)), none) ∧
    ((Load (some "d") idYamlDecode idEnvDecode exampleTarget).result =
      (if (collectMissing exampleFields).isEmpty then .ok
       else .failed (.missingRequired (collectMissing exampleFields))) ∧
     collectMissing exampleFields =
      (exampleFields.filter (fun f => f.2.1 == "true" && isZero f.2.2.2)).map
        (fun f => f.1)) ∧
    (Load (some "d") idYamlDecode idEnvDecode exampleTarget).result =
      .failed (.missingRequired ["Port"]) :=
  ⟨rfl, rfl, rfl,
   load_missing_required_exact "d" idYamlDecode idEnvDecode exampleTarget
     exampleTarget exampleFields rfl rfl rfl,
   rfl⟩

/-- Claim C2: the file decode is applied to the target before the
environment decode, so the load ends in the state given by the file pass
followed by the environment pass; for a field both sources provide, the
environment value is the one present afterwards, and for a field only the
file provides, the file value persists. -/
theorem env_overrides_file
    (fileSrc envSrc : String → Option String)
    (fields : List GoField) (data : String) (name : String) :
    (Load (some data) (fun _ c => (applyDecode fileSrc c, none))
        (fun c => (applyDecode envSrc c, none))
        (.vPtr (some (.vStruct fields)))).state =
      .vPtr (some (.vStruct
        (decodeFields envSrc (decodeFields fileSrc fields)))) ∧
    (∀ ev, envSrc name = some ev →
      getField name (decodeFields envSrc (decodeFields fileSrc fields)) =
        (getField name fields).map (fun _ => .vString ev)) ∧
    (envSrc name = none →
      ∀ fv, fileSrc name = some fv →
        getField name (decodeFields envSrc (decodeFields fileSrc fields)) =
          (getField name fields).map (fun _ => .vString fv)) := by
  refine ⟨?_, ?_, ?_⟩
  · have h0 : Load (some data) (fun _ c => (applyDecode fileSrc c, none))
        (fun c => (applyDecode envSrc c, none))
        (.vPtr (some (.vStruct fields))) =
        loadAfterFile (fun c => (applyDecode envSrc c, none))
          (applyDecode fileSrc (.vPtr (some (.vStruct fields))))
          [.readSource, .lock, .yamlDecode] := by
      simp [Load, kindIsPtr]
    rw [h0, loadAfterFile_state]
    simp [applyDecode]
  · intro ev hev
    rw [getField_decodeFields, getField_decodeFields]
    cases hg : getField name fields with
    | none => rfl
    | some old => simp [overrideWith, hev]
  · intro henv fv hf
    rw [getField_decodeFields, getField_decodeFields]
    cases hg : getField name fields with
    | none => rfl
    | some old => simp [overrideWith, henv, hf]

/-- Witness for the C2 theorem: "Debug" is provided by both sources and
ends with the environment's value; "Timeout" is provided only by the file
and ends with the file's value. -/
theorem env_overrides_file_witness :
    (Load (some "d") (fun _ c => (applyDecode fileSrcEx c, none))
        (fun c => (applyDecode envSrcEx c, none))
        (.vPtr (some (.vStruct exampleFields)))).state =
      .vPtr (some (.vStruct
        (decodeFields envSrcEx (decodeFields fileSrcEx exampleFields)))) ∧
    envSrcEx "Debug" = some "verbose" ∧
    getField "Debug" (decodeFields envSrcEx (decodeFields fileSrcEx exampleFields)) =
      (getField "Debug" exampleFields).map (fun _ => .vString "verbose") ∧
    envSrcEx "Timeout" = none ∧
    fileSrcEx "Timeout" = some "5" ∧
    getField "Timeout" (decodeFields envSrcEx (decodeFields fileSrcEx exampleFields)) =
      (getField "Timeout" exampleFields).map (fun _ => .vString "5") :=
  ⟨(env_overrides_file fileSrcEx envSrcEx exampleFields "d" "Debug").1,
   rfl,
   (env_overrides_file fileSrcEx envSrcEx exampleFields "d" "Debug").2.1
     "verbose" rfl,
   rfl, rfl,
   (env_overrides_file fileSrcEx envSrcEx exampleFields "d" "Timeout").2.2
     rfl "5" rfl⟩

/-- Claim C3: when the source read fails, the load raises no error for
the read: it skips the file decode, runs the environment decode and the
validation on the unchanged target, returns whatever those steps return,
and in particular never returns a YAML decode error. -/
theorem load_read_failure_silent
    (yamlUnmarshal : String → RValue → RValue × Option String)
    (envParse : RValue → RValue × Option String)
    (c : RValue) (hptr : kindIsPtr c = true) :
    Load none yamlUnmarshal envParse c =
      loadAfterFile envParse c [.readSource, .lock] ∧
    Event.yamlDecode ∉ (Load none yamlUnmarshal envParse c).events ∧
    (∀ e, (Load none yamlUnmarshal envParse c).result ≠
      .failed (.yamlError e)) := by
  have h0 : Load none yamlUnmarshal envParse c =
      loadAfterFile envParse c [.readSource, .lock] := by
    simp [Load, hptr]
  refine ⟨h0, ?_, ?_⟩
  · rw [h0]
    unfold loadAfterFile
    cases he : (envParse c).2 with
    | some e => simp [he]
    | none =>
        cases hfm : findMissingRequiredFields (envParse c).1 <;>
          simp [he, hfm]
  · intro e
    rw [h0]
    unfold loadAfterFile
    cases he : (envParse c).2 with
    | some e2 => simp [he]
    | none =>
        cases hfm : findMissingRequiredFields (envParse c).1 with
        | none => simp [he, hfm]
        | some ge =>
            simp only [he, hfm]
            intro hcontra
            have : ge = .yamlError e := by
              cases hcontra
              rfl
            rw [this] at hfm
            exact findMissing_ne_yamlError _ e hfm

/-- Witness for the C3 theorem at the example target with identity
decoders and a failed read. -/
theorem load_read_failure_silent_witness :
    kindIsPtr exampleTarget = true ∧
    (Load none idYamlDecode idEnvDecode exampleTarget =
       loadAfterFile idEnvDecode exampleTarget [.readSource, .lock] ∧
     Event.yamlDecode ∉ (Load none idYamlDecode idEnvDecode exampleTarget).events ∧
     (∀ e, (Load none idYamlDecode idEnvDecode exampleTarget).result ≠
       .failed (.yamlError e))) :=
  ⟨rfl, load_read_failure_silent idYamlDecode idEnvDecode exampleTarget rfl⟩

/-- Claim C5 fails on the code: in the trace of a load, the source read
is the first step and the guard acquisition only the second, so the read
does not occur while the guard is held. -/
theorem load_reads_before_lock_counterexample :
    (Load (some "data") idYamlDecode idEnvDecode exampleTarget).events =
      [Event.readSource, Event.lock, Event.yamlDecode, Event.envDecode,
       Event.validate, Event.unlock] ∧
    List.indexOf Event.readSource
        [Event.readSource, Event.lock, Event.yamlDecode, Event.envDecode,
         Event.validate, Event.unlock] <
      List.indexOf Event.lock
        [Event.readSource, Event.lock, Event.yamlDecode, Event.envDecode,
         Event.validate, Event.unlock] :=
  ⟨rfl, by decide⟩

/-- Claim C5 amended: the source read happens first, before the guard is
acquired; the guard is then acquired and held for the entire remainder of
the call, released as the final step on every non-panicking exit path,
with every decode and validation step occurring between acquisition and
release. -/
theorem load_guard_held_after_read
    (readResult : Option String)
    (yamlUnmarshal : String → RValue → RValue × Option String)
    (envParse : RValue → RValue × Option String)
    (c : RValue) (hptr : kindIsPtr c = true) :
    ∃ mid, (Load readResult yamlUnmarshal envParse c).events =
        Event.readSource :: Event.lock :: (mid ++ [Event.unlock]) ∧
      ∀ ev ∈ mid, ev = Event.yamlDecode ∨ ev = Event.envDecode ∨
        ev = Event.validate := by
  cases readResult with
  | none =>
      have h0 : Load none yamlUnmarshal envParse c =
          loadAfterFile envParse c [.readSource, .lock] := by
        simp [Load, hptr]
      rw [h0]
      unfold loadAfterFile
      cases he : (envParse c).2 with
      | some e => exact ⟨[Event.envDecode], by simp [he], by decide⟩
      | none =>
          cases hfm : findMissingRequiredFields (envParse c).1 with
          | some ge =>
              exact ⟨[Event.envDecode, Event.validate], by simp [he, hfm],
                by decide⟩
          | none =>
              exact ⟨[Event.envDecode, Event.validate], by simp [he, hfm],
                by decide⟩
  | some data =>
      cases hy : (yamlUnmarshal data c).2 with
      | some e =>
          refine ⟨[Event.yamlDecode], ?_, by decide⟩
          simp [Load, hptr, hy]
      | none =>
          have h0 : Load (some data) yamlUnmarshal envParse c =
              loadAfterFile envParse (yamlUnmarshal data c).1
                [.readSource, .lock, .yamlDecode] := by
            simp [Load, hptr, hy]
          rw [h0]
          unfold loadAfterFile
          cases he : (envParse (yamlUnmarshal data c).1).2 with
          | some e =>
              exact ⟨[Event.yamlDecode, Event.envDecode], by simp [he],
                by decide⟩
          | none =>
              cases hfm :
                  findMissingRequiredFields (envParse (yamlUnmarshal data c).1).1 with
              | some ge =>
                  exact ⟨[Event.yamlDecode, Event.envDecode, Event.validate],
                    by simp [he, hfm], by decide⟩
              | none =>
                  exact ⟨[Event.yamlDecode, Event.envDecode, Event.validate],
                    by simp [he, hfm], by decide⟩

/-- Witness for the amended C5 theorem at the example target. -/
theorem load_guard_held_after_read_witness :
    kindIsPtr exampleTarget = true ∧
    (∃ mid, (Load (some "d") idYamlDecode idEnvDecode exampleTarget).events =
        Event.readSource :: Event.lock :: (mid ++ [Event.unlock]) ∧
      ∀ ev ∈ mid, ev = Event.yamlDecode ∨ ev = Event.envDecode ∨
        ev = Event.validate) :=
  ⟨rfl, load_guard_held_after_read (some "d") idYamlDecode idEnvDecode
    exampleTarget rfl⟩

/-- Claim C8 fails on the code: the validator's nil-pointer and
not-a-struct conditions are returned from a load as ordinary error
values, not panics: a pointer to a non-struct makes the load return the
not-a-struct error and a nil pointer makes it return the nil-pointer
error, in neither case panicking. -/
theorem load_returns_notAStruct_counterexample :
    (Load none idYamlDecode idEnvDecode (.vPtr (some (.vInt 5)))).result =
      .failed .notAStruct ∧
    (Load none idYamlDecode idEnvDecode (.vPtr none)).result =
      .failed .nilPointer ∧
    (∀ msg, (Load none idYamlDecode idEnvDecode
      (.vPtr (some (.vInt 5)))).result ≠ .panicked msg) :=
  ⟨rfl, rfl, fun _ h => LoadResult.noConfusion h⟩

/-- Claim C8 amended: a non-pointer argument makes the load and the
reload arming abort (panic) before doing anything else, but the
validator's nil-pointer and not-a-struct conditions are produced as
ordinary error values that the load returns. -/
theorem load_panics_only_on_nonpointer
    (readResult : Option String)
    (yamlUnmarshal : String → RValue → RValue × Option String)
    (envParse : RValue → RValue × Option String)
    (c : RValue) (st : ArmState) (hc : kindIsPtr c = false) :
    Load readResult yamlUnmarshal envParse c =
      ⟨c, .panicked "Load only accepts pointers to structs", []⟩ ∧
    ListenForSignals false st = none ∧
    findMissingRequiredFields (.vPtr none) = some .nilPointer ∧
    findMissingRequiredFields (.vPtr (some (.vInt 0))) = some .notAStruct := by
  refine ⟨?_, rfl, rfl, rfl⟩
  simp [Load, hc]

/-- Witness for the amended C8 theorem at the non-pointer argument 7. -/
theorem load_panics_only_on_nonpointer_witness :
    kindIsPtr (.vInt 7) = false ∧
    (Load none idYamlDecode idEnvDecode (.vInt 7) =
       ⟨.vInt 7, .panicked "Load only accepts pointers to structs", []⟩ ∧
     ListenForSignals false ⟨false, 0⟩ = none ∧
     findMissingRequiredFields (.vPtr none) = some .nilPointer ∧
     findMissingRequiredFields (.vPtr (some (.vInt 0))) = some .notAStruct) :=
  ⟨rfl, load_panics_only_on_nonpointer none idYamlDecode idEnvDecode
    (.vInt 7) ⟨false, 0⟩ rfl⟩

/-- Claim C10: a load with tag-driven decoders ends with the target
holding exactly the result of the decode passes, and any field neither
source provides — in particular the untagged `filename` and `listening`
fields — retains exactly its pre-load value. -/
theorem load_frame_untouched_fields
    (readResult : Option String)
    (fileSrc envSrc : String → Option String)
    (fields : List GoField) (name : String)
    (hf : fileSrc name = none) (he : envSrc name = none) :
    (Load readResult (fun _ c => (applyDecode fileSrc c, none))
        (fun c => (applyDecode envSrc c, none))
        (.vPtr (some (.vStruct fields)))).state =
      .vPtr (some (.vStruct (mergedFields readResult fileSrc envSrc fields))) ∧
    getField name (mergedFields readResult fileSrc envSrc fields) =
      getField name fields := by
  constructor
  · cases readResult with
    | some data =>
        have h0 : Load (some data) (fun _ c => (applyDecode fileSrc c, none))
            (fun c => (applyDecode envSrc c, none))
            (.vPtr (some (.vStruct fields))) =
            loadAfterFile (fun c => (applyDecode envSrc c, none))
              (applyDecode fileSrc (.vPtr (some (.vStruct fields))))
              [.readSource, .lock, .yamlDecode] := by
          simp [Load, kindIsPtr]
        rw [h0, loadAfterFile_state]
        simp [applyDecode, mergedFields]
    | none =>
        have h0 : Load none (fun _ c => (applyDecode fileSrc c, none))
            (fun c => (applyDecode envSrc c, none))
            (.vPtr (some (.vStruct fields))) =
            loadAfterFile (fun c => (applyDecode envSrc c, none))
              (.vPtr (some (.vStruct fields))) [.readSource, .lock] := by
          simp [Load, kindIsPtr]
        rw [h0, loadAfterFile_state]
        simp [applyDecode, mergedFields]
  · cases readResult with
    | some data =>
        simp only [mergedFields]
        rw [getField_decodeFields, getField_decodeFields]
        cases hg : getField name fields with
        | none => rfl
        | some old => simp [overrideWith, hf, he]
    | none =>
        simp only [mergedFields]
        rw [getField_decodeFields]
        cases hg : getField name fields with
        | none => rfl
        | some old => simp [overrideWith, he]

/-- Witness for the C10 theorem: neither example source provides the
"filename" field of the Config-shaped target, and it keeps its value. -/
theorem load_frame_untouched_fields_witness :
    fileSrcEx "filename" = none ∧ envSrcEx "filename" = none ∧
    ((Load (some "d") (fun _ c => (applyDecode fileSrcEx c, none))
        (fun c => (applyDecode envSrcEx c, none))
        (.vPtr (some (.vStruct configFields)))).state =
      .vPtr (some (.vStruct
        (mergedFields (some "d") fileSrcEx envSrcEx configFields))) ∧
     getField "filename" (mergedFields (some "d") fileSrcEx envSrcEx configFields) =
       getField "filename" configFields) :=
  ⟨rfl, rfl, load_frame_untouched_fields (some "d") fileSrcEx envSrcEx
    configFields "filename" rfl rfl⟩

/-- Claim C4: for pointer-, map-, slice- and func-valued fields the
zero-value inspector judges the value unset iff the reference is nil; a
present reference to any payload (including a zero-valued one) counts as
set, so a required field holding a non-nil pointer is never collected as
missing. -/
theorem reference_kinds_unset_iff_nil :
    (∀ p : Option RValue, isZero (.vPtr p) = p.isNone) ∧
    (∀ b : Bool, isZero (.vMap b) = b) ∧
    (∀ b : Bool, isZero (.vSlice b) = b) ∧
    (∀ b : Bool, isZero (.vFunc b) = b) ∧
    (∀ (n r : String) (cs : Bool) (payload : RValue) (rest : List GoField),
      collectMissing ((n, r, cs, .vPtr (some payload)) :: rest) =
        collectMissing rest) := by
  refine ⟨fun p => rfl, fun b => rfl, fun b => rfl, fun b => rfl,
    fun n r cs payload rest => ?_⟩
  simp [collectMissing, isZero]

/-- Claim C6 fails on the code: an unknown current level string maps to
the int zero value 0, the same rank as "error", so the comparison against
the known level "error" returns true, where the claim requires false. -/
theorem debugLevel_unknown_counterexample :
    DebugLevel "bogus" "error" = true ∧
    "bogus" ∉ knownLevels ∧ "error" ∈ knownLevels := by
  refine ⟨rfl, ?_, ?_⟩ <;> simp [knownLevels]

/-- Claim C6 amended: the comparison is by rank, and an unknown level
string (current or queried) is treated as rank 0, the same rank as
"error"; hence with an unknown current level the comparison returns true
exactly against "error" and against unknown queried strings, and false
against "warning", "info" and "verbose". -/
theorem debugLevel_unknown_rank_zero (cur lvl : String)
    (hcur : cur ∉ knownLevels) :
    debugLevelMap cur = 0 ∧
    (DebugLevel cur lvl = true ↔ (lvl = "error" ∨ lvl ∉ knownLevels)) := by
  simp only [knownLevels, List.mem_cons, List.not_mem_nil, or_false] at hcur
  push_neg at hcur
  obtain ⟨h1, h2, h3, h4⟩ := hcur
  have hzero : debugLevelMap cur = 0 := by
    simp [debugLevelMap, h1, h2, h3, h4]
  refine ⟨hzero, ?_⟩
  unfold DebugLevel
  rw [hzero]
  simp only [knownLevels, List.mem_cons, List.not_mem_nil, or_false]
  by_cases e1 : lvl = "error"
  · simp [debugLevelMap, e1]
  · by_cases e2 : lvl = "warning"
    · simp [debugLevelMap, e1, e2]
    · by_cases e3 : lvl = "info"
      · simp [debugLevelMap, e1, e2, e3]
      · by_cases e4 : lvl = "verbose"
        · simp [debugLevelMap, e1, e2, e3, e4]
        · simp [debugLevelMap, e1, e2, e3, e4]

/-- Witness for the amended C6 theorem at the unknown current level
"bogus" and the known queried level "warning". -/
theorem debugLevel_unknown_rank_zero_witness :
    debugLevelMap "bogus" = 0 ∧
    (DebugLevel "bogus" "warning" = true ↔
      ("warning" = "error" ∨ "warning" ∉ knownLevels)) :=
  debugLevel_unknown_rank_zero "bogus" "warning" (by simp [knownLevels])

/-- Claim C7 fails on the code: the validator's loop follows pointer
indirections repeatedly, so a pointer to a pointer to a struct validates
successfully, although after exactly one indirection the value reached is
still a pointer, not a struct, for which the claim requires a
not-a-struct failure. -/
theorem validator_two_indirections_counterexample :
    findMissingRequiredFields (.vPtr (some (.vPtr (some (.vStruct []))))) =
      none ∧
    kindIsPtr (.vPtr (some (.vStruct []))) = true := ⟨rfl, rfl⟩

/-- Claim C7 amended: the validator follows every level of pointer
indirection (not exactly one); it fails with the nil-pointer error when a
nil reference is encountered at any depth, fails with the not-a-struct
error when the first non-pointer value reached is not a struct, and
otherwise validates that struct's required fields. -/
theorem validator_follows_all_indirections (v : RValue) :
    findMissingRequiredFields v = validateDeref v :=
  findMissing_eq_deref v

/-- Claim C9: arming is idempotent on the listening flag: a first call on
an unarmed target sets the flag and spawns exactly one background task; a
call on an armed target returns the state unchanged; running the arming
twice equals running it once. -/
theorem listen_armed_idempotent (st : ArmState) :
    ListenForSignals true st =
      some (if st.listening then st
            else ⟨true, st.tasksStarted + 1⟩) ∧
    (ListenForSignals true st).bind (ListenForSignals true) =
      ListenForSignals true st := by
  cases h : st.listening <;>
    simp [ListenForSignals, h, Option.bind]

end Goconfig
